import Mathlib

/-!
# Verification of the `learn-compilers` level-0 expression parsers

Shallow embedding of `src/level0/g1_parser.py` (minimal grammar) and
`src/level0/g2_parser.py` (extended grammar) in Lean 4, together with
proofs about the claims of the specification.

Modelling conventions:
* The Python `Parser` object state (`text`, `pos`, `current`) becomes the
  structure `Calc.St`; every mutating method becomes a function returning
  the updated state.
* Python `None` flowing where a numeric value is expected becomes
  `Option Calc.Val` with `none`.
* Python numbers become `Calc.Val`: `int` carries a `ℤ`, `float` carries a
  `ℚ` (every numeric literal and every arithmetic result reached by the
  claims is exactly representable as a rational, so `ℚ` is an exact model
  of the float values involved).
* A raised exception becomes `Except.error`; the error type `Calc.Err`
  distinguishes the `ParseError` class from any other exception class
  (`exc`), since the code raises both.
* The mutually recursive grammar functions and their `while` loops take a
  fuel argument so that recursion is structural; `parse` supplies fuel
  that is proved (and, on concrete inputs, computed) to be sufficient,
  and running out of fuel is the distinguished error `Err.fuel`.
-/

namespace Calc

/-- Python scanner state: `self.text`, `self.pos`, `self.current`
(`g2_parser.py` lines 5-8; `g1_parser.py` is identical). -/
structure St where
  text : List Char
  pos : ℕ
  current : Option Char
deriving Repr, DecidableEq

/-- The constructor `__init__`: `self.current = self.text[0] if text else None`. -/
def init (t : List Char) : St :=
  ⟨t, 0, if h : t = [] then none else some (t.get ⟨0, List.length_pos.mpr h⟩)⟩

/-- Method `advance`: `self.pos += 1; self.current = self.text[self.pos] if self.pos < len(self.text) else None`. -/
def advance (s : St) : St :=
  if h : s.pos + 1 < s.text.length then
    ⟨s.text, s.pos + 1, some (s.text.get ⟨s.pos + 1, h⟩)⟩
  else
    ⟨s.text, s.pos + 1, none⟩

/-- Checked variant of `__init__` for the in-bounds-indexing claim: an
out-of-bounds read of `text[0]` (Python `IndexError`) would be `none`. -/
def initChecked (t : List Char) : Option St :=
  if t = [] then some ⟨t, 0, none⟩
  else match t.get? 0 with
    | none => none
    | some c => some ⟨t, 0, some c⟩

/-- Checked variant of `advance`: an out-of-bounds read of
`text[self.pos]` (Python `IndexError`) would be `none`. -/
def advanceChecked (s : St) : Option St :=
  if s.pos + 1 < s.text.length then
    match s.text.get? (s.pos + 1) with
    | none => none
    | some c => some ⟨s.text, s.pos + 1, some c⟩
  else some ⟨s.text, s.pos + 1, none⟩

/-- Python `str.isspace()` restricted to the latin-1 characters on which it
is true (the inputs of this program are ASCII). -/
def pyIsSpace (c : Char) : Bool :=
  c == ' ' || c == '\t' || c == '\n' || c == '\x0b' || c == '\x0c' ||
  c == '\r' || c == '\x1c' || c == '\x1d' || c == '\x1e' || c == '\x1f' ||
  c == '\x85' || c == '\xa0'

/-- Python `str.isdigit()` on ASCII: `'0' <= c <= '9'`. -/
def pyIsDigit (c : Char) : Bool :=
  '0' ≤ c && c ≤ '9'

/-- Fueled body of `skip_whitespace`'s `while` loop:
`while self.current and self.current.isspace(): self.advance()`.
(A Python character is always truthy, `None` is falsy.) -/
def skipWsAux : ℕ → St → St
  | 0, s => s
  | f + 1, s =>
    match s.current with
    | some c => if pyIsSpace c then skipWsAux f (advance s) else s
    | none => s

/-- Method `skip_whitespace` (identical in both parsers).  `text.length + 1` fuel
always suffices: after any `advance`, `current` is `some` only while
`pos < text.length`, and `pos` strictly increases each iteration. -/
def skip_whitespace (s : St) : St :=
  skipWsAux (s.text.length + 1) s

/-- The scanner invariant stated by the spec: `current` is exactly
`text[position]` when in range, `none` otherwise. -/
def inv (s : St) : Prop :=
  s.current = s.text.get? s.pos

/-- Numeric values: Python `int` (as `ℤ`) or Python `float` (as `ℚ`). -/
inductive Val where
  | int (n : ℤ)
  | float (q : ℚ)
deriving Repr, DecidableEq

/-- Whether a value carries the Python `float` type tag. -/
def Val.isFloat : Val → Bool
  | .int _ => false
  | .float _ => true

/-- The rational magnitude of a value. -/
def Val.toQ : Val → ℚ
  | .int n => (n : ℚ)
  | .float q => q

/-- Errors: the `ParseError` class, any other Python exception (`Exception`,
`TypeError`, `ZeroDivisionError`), or fuel exhaustion (an artifact of the
embedding, proved unreachable where needed). -/
inductive Err where
  | parseError (msg : String)
  | exc (msg : String)
  | fuel
deriving Repr, DecidableEq

/-- Python binary `+` on the operands the parsers produce: `int + int` is
`int`, any `float` operand promotes to `float`, and an operand that is
`None` raises `TypeError`. -/
def pyAdd : Option Val → Option Val → Except Err Val
  | some (.int m), some (.int n) => .ok (.int (m + n))
  | some a, some b => .ok (.float (a.toQ + b.toQ))
  | _, _ => .error (.exc "TypeError")

/-- Python binary `-` (same typing as `+`). -/
def pySub : Option Val → Option Val → Except Err Val
  | some (.int m), some (.int n) => .ok (.int (m - n))
  | some a, some b => .ok (.float (a.toQ - b.toQ))
  | _, _ => .error (.exc "TypeError")

/-- Python binary `*` (same typing as `+`). -/
def pyMul : Option Val → Option Val → Except Err Val
  | some (.int m), some (.int n) => .ok (.int (m * n))
  | some a, some b => .ok (.float (a.toQ * b.toQ))
  | _, _ => .error (.exc "TypeError")

/-- Python true division `/`: the result is always a `float`, whatever the
operand types; dividing by zero raises `ZeroDivisionError`; a `None`
operand raises `TypeError`. -/
def pyDiv : Option Val → Option Val → Except Err Val
  | some a, some b =>
      if b.toQ = 0 then .error (.exc "ZeroDivisionError")
      else .ok (.float (a.toQ / b.toQ))
  | _, _ => .error (.exc "TypeError")

/-- Python `**` on the operands the parsers produce: `int ** int` with a
nonnegative exponent is `int`; a negative exponent promotes to `float`
(raising `ZeroDivisionError` on base 0); with a `float` operand the result
is `float`, where an exponent with a fractional part falls outside the
rational model (no claim reaches that case); `None` raises `TypeError`. -/
def pyPow : Option Val → Option Val → Except Err Val
  | some (.int m), some (.int n) =>
      if 0 ≤ n then .ok (.int (m ^ n.toNat))
      else if m = 0 then .error (.exc "ZeroDivisionError")
      else .ok (.float ((m : ℚ) ^ n))
  | some a, some b =>
      if (b.toQ).den = 1 then
        if a.toQ = 0 ∧ (b.toQ).num < 0 then .error (.exc "ZeroDivisionError")
        else .ok (.float (a.toQ ^ (b.toQ).num))
      else .error (.exc "irrational result outside the rational model")
  | _, _ => .error (.exc "TypeError")

/-- Python unary `-`: negation, `TypeError` on `None`. -/
def pyNeg : Option Val → Except Err Val
  | some (.int m) => .ok (.int (-m))
  | some (.float q) => .ok (.float (-q))
  | none => .error (.exc "TypeError")

/-- Python `int(result)` on the digit strings `number` produces:
the decimal value of the digit list. -/
def digitsVal (ds : List Char) : ℕ :=
  ds.foldl (fun a c => 10 * a + (c.toNat - '0'.toNat)) 0

/-- Python `float(result)` on the digit-and-one-dot strings `number`
produces: integer part plus fractional part scaled by `10 ^ length`. -/
def pyFloatOfLit (cs : List Char) : ℚ :=
  let intPart := cs.takeWhile (fun c => c ≠ '.')
  let fracPart := (cs.dropWhile (fun c => c ≠ '.')).drop 1
  (digitsVal intPart : ℚ) + (digitsVal fracPart : ℚ) / 10 ^ fracPart.length

/-- Fuel supplied by `parse`: every recursive descent either moves down one
of the five grammar levels or first consumes a character, so this bound is
never reached (proved where a claim needs it, computed on concrete inputs). -/
def parseFuel (t : List Char) : ℕ :=
  8 * (t.length + 2) + 8

namespace G2

/-- Fueled body of `number`'s scan loop (`g2_parser.py` lines 26-32):
greedily consume digits and at most one `.`; a second `.` breaks the loop.
Returns the accumulated `result` string, the `has_dot` flag, and the
final scanner state. -/
def numberAux : ℕ → St → Bool → List Char → List Char × Bool × St
  | 0, s, hd, acc => (acc, hd, s)
  | f + 1, s, hd, acc =>
    match s.current with
    | some c =>
      if pyIsDigit c || c == '.' then
        if c == '.' then
          if hd then (acc, hd, s)
          else numberAux f (advance s) true (acc ++ [c])
        else numberAux f (advance s) hd (acc ++ [c])
      else (acc, hd, s)
    | none => (acc, hd, s)

/-- Method `Parser.number` of `g2_parser.py`: skip whitespace, scan the literal,
return `None` for an empty or dot-only scan, else `float(result)` when a
dot was seen and `int(result)` otherwise. -/
def number (s0 : St) : Option Val × St :=
  let s := skip_whitespace s0
  let r := numberAux (s.text.length + 1) s false []
  if r.1 = [] ∨ r.1 = ['.'] then (none, r.2.2)
  else if r.2.1 then (some (.float (pyFloatOfLit r.1)), r.2.2)
  else (some (.int (digitsVal r.1)), r.2.2)

mutual

/-- Method `Parser.primary` of `g2_parser.py`: `number | ( expression )`.
Note the source consumes a `)` only when one is present and otherwise
returns the inner result silently. -/
def primary (fuel : ℕ) (s0 : St) : Except Err (Option Val × St) :=
  match fuel with
  | 0 => .error .fuel
  | f + 1 =>
    let s := skip_whitespace s0
    if s.current = some '(' then
      match expression f (advance s) with
      | .error e => .error e
      | .ok (result, s1) =>
        let s2 := skip_whitespace s1
        if s2.current = some ')' then .ok (result, advance s2)
        else .ok (result, s2)
    else .ok (number s)
termination_by structural fuel

/-- Method `Parser.unary` of `g2_parser.py`: `- unary | primary`. -/
def unary (fuel : ℕ) (s0 : St) : Except Err (Option Val × St) :=
  match fuel with
  | 0 => .error .fuel
  | f + 1 =>
    let s := skip_whitespace s0
    if s.current = some '-' then
      match unary f (advance s) with
      | .error e => .error e
      | .ok (v, s1) =>
        match pyNeg v with
        | .error e => .error e
        | .ok w => .ok (some w, s1)
    else primary f s
termination_by structural fuel

/-- Method `Parser.exponent` of `g2_parser.py`: `unary (^ exponent)?`,
right-associative via the recursive call on its own level. -/
def exponent (fuel : ℕ) (s0 : St) : Except Err (Option Val × St) :=
  match fuel with
  | 0 => .error .fuel
  | f + 1 =>
    match unary f s0 with
    | .error e => .error e
    | .ok (left, s1) =>
      let s := skip_whitespace s1
      if s.current = some '^' then
        match exponent f (advance s) with
        | .error e => .error e
        | .ok (right, s2) =>
          match pyPow left right with
          | .error e => .error e
          | .ok w => .ok (some w, s2)
      else .ok (left, s)
termination_by structural fuel

/-- Method `Parser.term` of `g2_parser.py`: `exponent ((* | /) exponent)*`. -/
def term (fuel : ℕ) (s0 : St) : Except Err (Option Val × St) :=
  match fuel with
  | 0 => .error .fuel
  | f + 1 =>
    match exponent f s0 with
    | .error e => .error e
    | .ok (left, s1) => termLoop f left s1
termination_by structural fuel

/-- The `while True` loop of `Parser.term`, folding `*` and `/` operands
into `left` immediately (left-associative). -/
def termLoop (fuel : ℕ) (left : Option Val) (s0 : St) : Except Err (Option Val × St) :=
  match fuel with
  | 0 => .error .fuel
  | f + 1 =>
    let s := skip_whitespace s0
    if s.current = some '*' then
      match exponent f (advance s) with
      | .error e => .error e
      | .ok (right, s1) =>
        match pyMul left right with
        | .error e => .error e
        | .ok w => termLoop f (some w) s1
    else if s.current = some '/' then
      match exponent f (advance s) with
      | .error e => .error e
      | .ok (right, s1) =>
        match pyDiv left right with
        | .error e => .error e
        | .ok w => termLoop f (some w) s1
    else .ok (left, s)
termination_by structural fuel

/-- Method `Parser.expression` of `g2_parser.py`: `term ((+ | -) term)*`. -/
def expression (fuel : ℕ) (s0 : St) : Except Err (Option Val × St) :=
  match fuel with
  | 0 => .error .fuel
  | f + 1 =>
    match term f s0 with
    | .error e => .error e
    | .ok (left, s1) => exprLoop f left s1
termination_by structural fuel

/-- The `while True` loop of `Parser.expression`, folding `+` and `-`
operands into `left` immediately (left-associative). -/
def exprLoop (fuel : ℕ) (left : Option Val) (s0 : St) : Except Err (Option Val × St) :=
  match fuel with
  | 0 => .error .fuel
  | f + 1 =>
    let s := skip_whitespace s0
    if s.current = some '+' then
      match term f (advance s) with
      | .error e => .error e
      | .ok (right, s1) =>
        match pyAdd left right with
        | .error e => .error e
        | .ok w => exprLoop f (some w) s1
    else if s.current = some '-' then
      match term f (advance s) with
      | .error e => .error e
      | .ok (right, s1) =>
        match pySub left right with
        | .error e => .error e
        | .ok w => exprLoop f (some w) s1
    else .ok (left, s)

termination_by structural fuel
end

/-- Method `Parser.parse` of `g2_parser.py`: parse an `expression`, skip trailing
whitespace, and raise a plain `Exception` (not a `ParseError`) if any
character remains. -/
def parse (text : String) : Except Err (Option Val) :=
  match expression (parseFuel text.data) (init text.data) with
  | .error e => .error e
  | .ok (result, s1) =>
    let s := skip_whitespace s1
    match s.current with
    | some c => .error (.exc ("Unexpected character: " ++ String.singleton c))
    | none => .ok result

end G2

namespace G1

/-- Method `Parser.match` of `g1_parser.py` (named `matchChar` here because
`match` is reserved in Lean): skip whitespace, consume the expected
character if present, report whether it was consumed. -/
def matchChar (expected : Char) (s0 : St) : Bool × St :=
  let s := skip_whitespace s0
  if s.current = some expected then (true, advance s)
  else (false, s)

/-- Fueled body of the `number` scan loop of `g1_parser.py`
(digits only, no decimal point). -/
def numberAux : ℕ → St → List Char → List Char × St
  | 0, s, acc => (acc, s)
  | f + 1, s, acc =>
    match s.current with
    | some c => if pyIsDigit c then numberAux f (advance s) (acc ++ [c]) else (acc, s)
    | none => (acc, s)

/-- Method `Parser.number` of `g1_parser.py`: `int(result) if result else None`. -/
def number (s0 : St) : Option Val × St :=
  let s := skip_whitespace s0
  let r := numberAux (s.text.length + 1) s []
  (if r.1 = [] then none else some (.int (digitsVal r.1)), r.2)

mutual

/-- Method `Parser.factor` of `g1_parser.py`: `number | ( expression )`; raises
`ParseError("missing closing parenthesis!")` when `match(')')` fails. -/
def factor (fuel : ℕ) (s0 : St) : Except Err (Option Val × St) :=
  match fuel with
  | 0 => .error .fuel
  | f + 1 =>
    let s := skip_whitespace s0
    if s.current = some '(' then
      match expression f (advance s) with
      | .error e => .error e
      | .ok (result, s1) =>
        let r := matchChar ')' s1
        if r.1 then .ok (result, r.2)
        else .error (.parseError "missing closing parenthesis!")
    else .ok (number s)
termination_by structural fuel

/-- The `while` loop of `Parser.term_prime` of `g1_parser.py`; the state
has already had whitespace skipped when the condition is tested. -/
def termPrimeLoop (fuel : ℕ) (left : Option Val) (s : St) : Except Err (Option Val × St) :=
  match fuel with
  | 0 => .error .fuel
  | f + 1 =>
    if s.current = some '*' then
      match factor f (advance s) with
      | .error e => .error e
      | .ok (right, s1) =>
        match pyMul left right with
        | .error e => .error e
        | .ok w => termPrimeLoop f (some w) (skip_whitespace s1)
    else if s.current = some '/' then
      match factor f (advance s) with
      | .error e => .error e
      | .ok (right, s1) =>
        match pyDiv left right with
        | .error e => .error e
        | .ok w => termPrimeLoop f (some w) (skip_whitespace s1)
    else .ok (left, s)
termination_by structural fuel

/-- Method `Parser.term_prime` of `g1_parser.py`: skip whitespace, then fold `*`
and `/` operands into `left` (left-associative). -/
def termPrime (fuel : ℕ) (left : Option Val) (s0 : St) : Except Err (Option Val × St) :=
  match fuel with
  | 0 => .error .fuel
  | f + 1 => termPrimeLoop f left (skip_whitespace s0)
termination_by structural fuel

/-- Method `Parser.term` of `g1_parser.py`: `factor term'`. -/
def term (fuel : ℕ) (s0 : St) : Except Err (Option Val × St) :=
  match fuel with
  | 0 => .error .fuel
  | f + 1 =>
    match factor f s0 with
    | .error e => .error e
    | .ok (left, s1) => termPrime f left s1
termination_by structural fuel

/-- The `while` loop of `Parser.expression_prime` of `g1_parser.py` (the
source skips whitespace once before the loop and relies on `term` ending
with `term_prime`, which has already skipped trailing whitespace). -/
def exprPrimeLoop (fuel : ℕ) (left : Option Val) (s : St) : Except Err (Option Val × St) :=
  match fuel with
  | 0 => .error .fuel
  | f + 1 =>
    if s.current = some '+' then
      match term f (advance s) with
      | .error e => .error e
      | .ok (right, s1) =>
        match pyAdd left right with
        | .error e => .error e
        | .ok w => exprPrimeLoop f (some w) s1
    else if s.current = some '-' then
      match term f (advance s) with
      | .error e => .error e
      | .ok (right, s1) =>
        match pySub left right with
        | .error e => .error e
        | .ok w => exprPrimeLoop f (some w) s1
    else .ok (left, s)
termination_by structural fuel

/-- Method `Parser.expression_prime` of `g1_parser.py`: skip whitespace, then fold
`+` and `-` operands into `left` (left-associative). -/
def exprPrime (fuel : ℕ) (left : Option Val) (s0 : St) : Except Err (Option Val × St) :=
  match fuel with
  | 0 => .error .fuel
  | f + 1 => exprPrimeLoop f left (skip_whitespace s0)
termination_by structural fuel

/-- Method `Parser.expression` of `g1_parser.py`: `term expression'`. -/
def expression (fuel : ℕ) (s0 : St) : Except Err (Option Val × St) :=
  match fuel with
  | 0 => .error .fuel
  | f + 1 =>
    match term f s0 with
    | .error e => .error e
    | .ok (left, s1) => exprPrime f left s1
termination_by structural fuel

end

/-- Method `Parser.parse` of `g1_parser.py`: just `self.expression()` — note the
source has no check for unconsumed trailing input. -/
def parse (text : String) : Except Err (Option Val) :=
  match expression (parseFuel text.data) (init text.data) with
  | .error e => .error e
  | .ok (result, _) => .ok result

end G1

/-! ## Scanner lemmas -/

theorem inv_init (t : List Char) : inv (init t) := by
  unfold inv init
  split
  · simp_all
  · exact (List.get?_eq_get _).symm

theorem inv_advance (s : St) : inv (advance s) := by
  unfold inv advance
  split
  · exact (List.get?_eq_get _).symm
  · exact (List.get?_len_le (Nat.le_of_not_lt (by assumption))).symm

theorem advance_text (s : St) : (advance s).text = s.text := by
  unfold advance; split <;> rfl

theorem advance_pos (s : St) : (advance s).pos = s.pos + 1 := by
  unfold advance; split <;> rfl

theorem advance_end (s : St) (h : s.text.length ≤ s.pos) :
    (advance s).current = none ∧ (advance s).text.length ≤ (advance s).pos := by
  unfold advance
  split
  · omega
  · exact ⟨rfl, by simpa using Nat.le_succ_of_le h⟩

theorem inv_skipWsAux (f : ℕ) (s : St) (h : inv s) : inv (skipWsAux f s) := by
  induction f generalizing s with
  | zero => exact h
  | succ f ih =>
    unfold skipWsAux
    match hc : s.current with
    | some c =>
      by_cases hs : pyIsSpace c
      · simpa [hc, hs] using ih _ (inv_advance s)
      · simpa [hc, hs] using h
    | none => simpa [hc] using h

theorem inv_skip_whitespace (s : St) (h : inv s) : inv (skip_whitespace s) :=
  inv_skipWsAux _ s h

theorem skipWsAux_of_none (f : ℕ) (s : St) (h : s.current = none) :
    skipWsAux f s = s := by
  cases f with
  | zero => rfl
  | succ f => unfold skipWsAux; rw [h]

theorem skipWsAux_of_notSpace (f : ℕ) (s : St) (c : Char)
    (h : s.current = some c) (hs : pyIsSpace c = false) :
    skipWsAux f s = s := by
  cases f with
  | zero => rfl
  | succ f => unfold skipWsAux; rw [h]; simp [hs]

theorem skip_whitespace_of_none (s : St) (h : s.current = none) :
    skip_whitespace s = s :=
  skipWsAux_of_none _ s h

theorem skip_whitespace_of_notSpace (s : St) (c : Char)
    (h : s.current = some c) (hs : pyIsSpace c = false) :
    skip_whitespace s = s :=
  skipWsAux_of_notSpace _ s c h hs

/-! ## The literal scan as a pure function on the unread suffix -/

/-- The unread suffix of the input text. -/
def rem (s : St) : List Char :=
  s.text.drop s.pos

theorem get?_eq_head?_drop (l : List Char) (n : ℕ) :
    l.get? n = (l.drop n).head? := by
  simp [List.head?_eq_getElem?]

theorem rem_advance (s : St) : rem (advance s) = (rem s).tail := by
  unfold rem
  rw [advance_text, advance_pos, ← List.drop_one, List.drop_drop]

theorem current_of_rem_nil (s : St) (hinv : inv s) (h : rem s = []) :
    s.current = none := by
  rw [hinv, get?_eq_head?_drop]
  rw [rem] at h
  rw [h]
  rfl

theorem current_of_rem_cons (s : St) (c : Char) (cs : List Char)
    (hinv : inv s) (h : rem s = c :: cs) : s.current = some c := by
  rw [hinv, get?_eq_head?_drop]
  rw [rem] at h
  rw [h]
  rfl

/-- What the scan loop of `G2.number` computes, as a pure function of the
unread suffix: returns the consumed characters, the final `has_dot` flag,
and the unconsumed rest. -/
def scanNum : List Char → Bool → List Char × Bool × List Char
  | [], hd => ([], hd, [])
  | c :: cs, hd =>
    if pyIsDigit c || c == '.' then
      if c == '.' then
        if hd then ([], hd, c :: cs)
        else
          let r := scanNum cs true
          (c :: r.1, r.2.1, r.2.2)
      else
        let r := scanNum cs hd
        (c :: r.1, r.2.1, r.2.2)
    else ([], hd, c :: cs)

theorem numberAux_spec (ds : List Char) : ∀ (f : ℕ) (s : St) (hd : Bool) (acc : List Char),
    inv s → rem s = ds → ds.length + 1 ≤ f →
    ∃ s', G2.numberAux f s hd acc =
        (acc ++ (scanNum ds hd).1, (scanNum ds hd).2.1, s')
      ∧ s'.text = s.text ∧ s'.pos = s.pos + (scanNum ds hd).1.length ∧ inv s' := by
  induction ds with
  | nil =>
    intro f s hd acc hinv hrem hf
    obtain ⟨g, rfl⟩ : ∃ g, f = g + 1 := ⟨f - 1, by omega⟩
    refine ⟨s, ?_, rfl, by simp [scanNum], hinv⟩
    simp [G2.numberAux, current_of_rem_nil s hinv hrem, scanNum]
  | cons c cs ih =>
    intro f s hd acc hinv hrem hf
    obtain ⟨g, rfl⟩ : ∃ g, f = g + 1 := ⟨f - 1, by omega⟩
    have hcur := current_of_rem_cons s c cs hinv hrem
    have hremAdv : rem (advance s) = cs := by
      rw [rem_advance, hrem]; rfl
    have hg : cs.length + 1 ≤ g := by
      simp only [List.length_cons] at hf; omega
    by_cases hlit : (pyIsDigit c || c == '.') = true
    · by_cases hdot : (c == '.') = true
      · cases hd with
        | true =>
          refine ⟨s, ?_, rfl, by simp [scanNum, hlit, hdot], hinv⟩
          simp [G2.numberAux, hcur, hlit, hdot, scanNum]
        | false =>
          obtain ⟨s', heq, ht, hp, hi⟩ :=
            ih g (advance s) true (acc ++ [c]) (inv_advance s) hremAdv hg
          refine ⟨s', ?_, by rw [ht, advance_text], ?_, hi⟩
          · simp only [G2.numberAux, hcur, hlit, hdot, if_true, if_false,
              Bool.false_eq_true, scanNum]
            rw [heq]
            simp
          · rw [hp, advance_pos]
            simp [scanNum, hlit, hdot]
            omega
      · have hdig : pyIsDigit c = true := by
          rcases (Bool.or_eq_true _ _).mp hlit with h | h
          · exact h
          · exact absurd h hdot
        obtain ⟨s', heq, ht, hp, hi⟩ :=
          ih g (advance s) hd (acc ++ [c]) (inv_advance s) hremAdv hg
        refine ⟨s', ?_, by rw [ht, advance_text], ?_, hi⟩
        · simp only [G2.numberAux, hcur, hlit, hdot, if_true, if_false,
            Bool.false_eq_true, scanNum]
          rw [heq]
          simp [hdig]
        · rw [hp, advance_pos]
          simp [scanNum, hlit, hdot, hdig]
          omega
    · refine ⟨s, ?_, rfl, ?_, hinv⟩
      · simp [G2.numberAux, hcur, scanNum, hlit]
      · simp [scanNum, hlit]

/-- A valid numeric literal in the sense of the spec (extended to the
dot-adjacent forms the code accepts): a nonempty string of digits and at
most one decimal point that is not just a lone dot. -/
def ValidLit (L : String) : Prop :=
  L.data ≠ [] ∧ L.data ≠ ['.'] ∧
  (∀ c ∈ L.data, (pyIsDigit c || c == '.') = true) ∧
  L.data.count '.' ≤ 1

instance (L : String) : Decidable (ValidLit L) := by
  unfold ValidLit
  infer_instance

/-- The numeric value the spec assigns to a literal: a float exactly when a
decimal point is present, an integer otherwise. -/
def litVal (ds : List Char) : Val :=
  if ds.contains '.' then .float (pyFloatOfLit ds) else .int (digitsVal ds)

theorem scanNum_valid (ds : List Char) : ∀ (hd : Bool),
    (∀ c ∈ ds, (pyIsDigit c || c == '.') = true) →
    ds.count '.' + (if hd then 1 else 0) ≤ 1 →
    scanNum ds hd = (ds, hd || ds.contains '.', []) := by
  induction ds with
  | nil => intro hd _ _; simp [scanNum]
  | cons c cs ih =>
    intro hd hall hcount
    have hc := hall c (List.mem_cons_self c cs)
    unfold scanNum
    rw [if_pos hc]
    by_cases hdot : (c == '.') = true
    · have hceq : c = '.' := eq_of_beq hdot
      have hcnt : (c :: cs).count '.' = cs.count '.' + 1 := by
        rw [List.count_cons, if_pos hdot]
      have hdf : hd = false := by
        cases hd with
        | false => rfl
        | true => rw [hcnt] at hcount; simp at hcount
      subst hdf
      rw [if_pos hdot]
      simp only [Bool.false_eq_true, if_false]
      have hcs : cs.count '.' = 0 := by rw [hcnt] at hcount; simp at hcount; omega
      rw [ih true (fun d hm => hall d (List.mem_cons_of_mem c hm)) (by simp [hcs])]
      simp [hceq]
    · have hne : ¬c = '.' := fun h => hdot (by rw [h]; rfl)
      have hcnt : (c :: cs).count '.' = cs.count '.' := by
        rw [List.count_cons, if_neg hdot]
        simp
      rw [if_neg hdot]
      rw [ih hd (fun d hm => hall d (List.mem_cons_of_mem c hm)) (by omega)]
      have hdc : ('.' = c) ↔ False := ⟨fun h => hne h.symm, False.elim⟩
      simp [hdc]

theorem litChar_not_space (c : Char) (h : (pyIsDigit c || c == '.') = true) :
    pyIsSpace c = false := by
  rcases (Bool.or_eq_true _ _).mp h with hd | hdot
  · cases hsp : pyIsSpace c with
    | false => rfl
    | true =>
      exfalso
      simp only [pyIsSpace, Bool.or_eq_true, beq_iff_eq] at hsp
      rcases hsp with
          (((((((((((h1 | h1) | h1) | h1) | h1) | h1) | h1) | h1) | h1) | h1) | h1) | h1) <;>
        subst h1 <;> exact absurd hd (by decide)
  · have hc : c = '.' := eq_of_beq hdot
    subst hc; decide

theorem litChar_ne_lparen (c : Char) (h : (pyIsDigit c || c == '.') = true) :
    ¬c = '(' := by
  intro hc; subst hc; revert h; decide

theorem litChar_ne_minus (c : Char) (h : (pyIsDigit c || c == '.') = true) :
    ¬c = '-' := by
  intro hc; subst hc; revert h; decide

theorem rem_init (t : List Char) : rem (init t) = t := by
  simp [rem, init]

theorem init_text (t : List Char) : (init t).text = t := by
  simp [init]

/-- On a valid literal, `G2.number` consumes the whole input and returns
exactly the literal value (float when a dot is present, int otherwise). -/
theorem number_init_lit (L : String) (h : ValidLit L) :
    G2.number (init L.data) =
      (some (litVal L.data), ⟨L.data, L.data.length, none⟩) := by
  obtain ⟨hne, hnd, hall, hcount⟩ := h
  obtain ⟨c, cs, hL⟩ : ∃ c cs, L.data = c :: cs := by
    cases hL : L.data with
    | nil => exact absurd hL hne
    | cons c cs => exact ⟨c, cs, rfl⟩
  have hinv0 := inv_init L.data
  have hcur0 : (init L.data).current = some c :=
    current_of_rem_cons _ c cs hinv0 (by rw [rem_init, hL])
  have hcl : (pyIsDigit c || c == '.') = true :=
    hall c (hL ▸ List.mem_cons_self c cs)
  have hskip : skip_whitespace (init L.data) = init L.data :=
    skip_whitespace_of_notSpace _ c hcur0 (litChar_not_space c hcl)
  have hscan := scanNum_valid L.data false hall (by simpa using hcount)
  obtain ⟨s', heq, ht, hp, hi⟩ :=
    numberAux_spec L.data ((init L.data).text.length + 1) (init L.data) false []
      hinv0 (rem_init L.data) (by rw [init_text])
  have hs' : s' = ⟨L.data, L.data.length, none⟩ := by
    rw [hscan] at hp
    have hpos : s'.pos = L.data.length := by
      rw [hp]; simp [init]
    have htx : s'.text = L.data := by rw [ht, init_text]
    have hcu : s'.current = none := by
      rw [hi, hpos, htx]
      exact List.get?_len_le (Nat.le_refl _)
    obtain ⟨t0, p0, c0⟩ := s'
    simp only at hpos htx hcu
    rw [hpos, htx, hcu]
  simp only [G2.number]
  rw [hskip, heq, hscan, hs']
  simp [hne, hnd, litVal]
  split <;> rfl

/-- Common facts about the scanner state at the start of a valid literal:
the current character exists, is a literal character, and is not skipped. -/
theorem initLit_first (L : String) (h : ValidLit L) :
    ∃ c, (init L.data).current = some c ∧ (pyIsDigit c || c == '.') = true ∧
      skip_whitespace (init L.data) = init L.data := by
  obtain ⟨hne, _, hall, _⟩ := h
  obtain ⟨c, cs, hL⟩ : ∃ c cs, L.data = c :: cs := by
    cases hL : L.data with
    | nil => exact absurd hL hne
    | cons c cs => exact ⟨c, cs, rfl⟩
  have hcur : (init L.data).current = some c :=
    current_of_rem_cons _ c cs (inv_init L.data) (by rw [rem_init, hL])
  have hcl : (pyIsDigit c || c == '.') = true :=
    hall c (hL ▸ List.mem_cons_self c cs)
  exact ⟨c, hcur, hcl, skip_whitespace_of_notSpace _ c hcur (litChar_not_space c hcl)⟩

theorem endSt_skip (t : List Char) :
    skip_whitespace (⟨t, t.length, none⟩ : St) = ⟨t, t.length, none⟩ :=
  skip_whitespace_of_none _ rfl

theorem primary_init_lit (L : String) (h : ValidLit L) (f : ℕ) :
    G2.primary (f + 1) (init L.data) = .ok (G2.number (init L.data)) := by
  obtain ⟨c, hcur, hcl, hskip⟩ := initLit_first L h
  simp only [G2.primary]
  rw [hskip, hcur]
  rw [if_neg (fun hEq => litChar_ne_lparen c hcl (Option.some.inj hEq))]

theorem unary_init_lit (L : String) (h : ValidLit L) (f : ℕ) :
    G2.unary (f + 1) (init L.data) = G2.primary f (init L.data) := by
  obtain ⟨c, hcur, hcl, hskip⟩ := initLit_first L h
  simp only [G2.unary]
  rw [hskip, hcur]
  rw [if_neg (fun hEq => litChar_ne_minus c hcl (Option.some.inj hEq))]

theorem exponent_init_lit (L : String) (h : ValidLit L) (f : ℕ) :
    G2.exponent (f + 3) (init L.data) =
      .ok (some (litVal L.data), ⟨L.data, L.data.length, none⟩) := by
  simp only [G2.exponent]
  rw [unary_init_lit L h (f + 1), primary_init_lit L h f, number_init_lit L h]
  dsimp only
  rw [endSt_skip]
  simp

theorem term_init_lit (L : String) (h : ValidLit L) (f : ℕ) :
    G2.term (f + 4) (init L.data) =
      .ok (some (litVal L.data), ⟨L.data, L.data.length, none⟩) := by
  simp only [G2.term]
  rw [exponent_init_lit L h f]
  dsimp only
  simp only [G2.termLoop]
  rw [endSt_skip]
  simp

theorem expression_init_lit (L : String) (h : ValidLit L) (f : ℕ) :
    G2.expression (f + 5) (init L.data) =
      .ok (some (litVal L.data), ⟨L.data, L.data.length, none⟩) := by
  simp only [G2.expression]
  rw [term_init_lit L h f]
  dsimp only
  simp only [G2.exprLoop]
  rw [endSt_skip]
  simp

/-- On every valid literal, `G2.parse` returns exactly the literal value. -/
theorem parse_lit (L : String) (h : ValidLit L) :
    G2.parse L = .ok (some (litVal L.data)) := by
  unfold G2.parse
  have hf : parseFuel L.data = (8 * (L.data.length + 2) + 3) + 5 := by
    unfold parseFuel; omega
  rw [hf, expression_init_lit L h]
  dsimp only
  rw [endSt_skip]

theorem advance_iterate_end (n : ℕ) : ∀ (s : St), s.text.length ≤ s.pos →
    (advance^[n + 1] s).current = none := by
  induction n with
  | zero => intro s h; simpa using (advance_end s h).1
  | succ n ih =>
    intro s h
    rw [Function.iterate_succ_apply]
    exact ih (advance s) (advance_end s h).2

theorem initChecked_eq_init (t : List Char) : initChecked t = some (init t) := by
  unfold initChecked init
  by_cases h : t = []
  · simp [h]
  · rw [if_neg h, dif_neg h, List.get?_eq_get (List.length_pos.mpr h)]

theorem advanceChecked_eq_advance (s : St) : advanceChecked s = some (advance s) := by
  unfold advanceChecked advance
  by_cases h : s.pos + 1 < s.text.length
  · rw [if_pos h, dif_pos h, List.get?_eq_get h]
  · rw [if_neg h, dif_neg h]

end Calc

open Calc

/-! ## The claims -/

/-- Claim C1.  The claim states that a `(` without a matching `)` makes
parse fail with a ParseError.  The extended parser `g2_parser.py` violates
this: its `primary` consumes a `)` only if one happens to be present and
otherwise returns silently, so `parse("(2 + 3")` succeeds with 5.  The
minimal parser `g1_parser.py` behaves as the claim states and raises
`ParseError("missing closing parenthesis!")`. -/
theorem claim_C1_missing_paren_eval :
    G2.parse "(2 + 3" = .ok (some (.int 5)) ∧
    G1.parse "(2 + 3" = .error (.parseError "missing closing parenthesis!") :=
  ⟨rfl, rfl⟩

/-- Claim C2.  The claim states that unconsumed trailing input makes parse
fail with a ParseError (that kind, not some other error).  The code
violates this: `g2_parser.py` raises a plain `Exception` (not the
`ParseError` class its own REPL catches), and `g1_parser.py` has no
trailing-input check at all and returns 5 silently on `"2 + 3 )"`. -/
theorem claim_C2_trailing_eval :
    G2.parse "2 + 3 )" = .error (.exc "Unexpected character: )") ∧
    (∀ msg, G2.parse "2 + 3 )" ≠ .error (.parseError msg)) ∧
    G1.parse "2 + 3 )" = .ok (some (.int 5)) := by
  refine ⟨rfl, ?_, rfl⟩
  intro msg h
  rw [show G2.parse "2 + 3 )" = .error (.exc "Unexpected character: )") from rfl] at h
  exact Err.noConfusion (Except.error.inj h)

/-- Claim C3.  The claim states that a primary position yielding neither
`(` nor a valid literal makes parse fail with a ParseError rather than
returning an undefined value such as none.  The extended parser violates
this: `number` returns `None` on an empty scan, the value flows up through
every grammar level, and `parse("")` returns `None` without any error. -/
theorem claim_C3_primary_none_eval :
    G2.parse "" = .ok none ∧
    (∀ e, G2.parse "" ≠ .error e) ∧
    (G2.number (init "".data)).1 = none := by
  refine ⟨rfl, ?_, rfl⟩
  intro e h
  rw [show G2.parse "" = .ok none from rfl] at h
  exact Except.noConfusion h

/-- Claim C4.  The `^` operator is right-associative: `parse("2 ^ 3 ^ 2")`
returns `2 ^ (3 ^ 2) = 512` and not `(2 ^ 3) ^ 2 = 64`; parenthesising the
left pair is what yields 64. -/
theorem claim_C4_exponent_right_assoc :
    G2.parse "2 ^ 3 ^ 2" = .ok (some (.int 512)) ∧
    G2.parse "2 ^ 3 ^ 2" ≠ .ok (some (.int 64)) ∧
    G2.parse "(2 ^ 3) ^ 2" = .ok (some (.int 64)) := by
  refine ⟨rfl, ?_, rfl⟩
  intro h
  rw [show G2.parse "2 ^ 3 ^ 2" = .ok (some (.int 512)) from rfl] at h
  simp at h

/-- Claim C5.  `+`, `-`, `*`, `/` are left-associative: each newly parsed
right operand is folded into the accumulated result immediately, so
`parse("10 / 2 / 5")` returns `(10/2)/5 = 1.0` and not `10/(2/5) = 25.0`;
likewise `parse("10 - 4 - 3")` returns `(10-4)-3 = 3`. -/
theorem claim_C5_left_assoc :
    G2.parse "10 / 2 / 5" = .ok (some (.float 1)) ∧
    G2.parse "10 / 2 / 5" ≠ .ok (some (.float 25)) ∧
    G2.parse "10 - 4 - 3" = .ok (some (.int 3)) := by
  refine ⟨by with_unfolding_all rfl, ?_, rfl⟩
  intro h
  rw [show G2.parse "10 / 2 / 5" = .ok (some (.float 1)) from by with_unfolding_all rfl] at h
  simp at h

/-- Claim C6.  For every valid literal L, `parse(L)` returns the literal
value exactly: an integer if L has no decimal point, a float if it has
one (`litVal`); inside the literal rule a second decimal point ends the
scan early (on `"1.2.5"` the scan stops after `"1.2"`, at position 3),
and an empty or dot-only scan yields `None` ("no literal here"), distinct
from a valid zero. -/
theorem claim_C6_literals :
    (∀ L : String, ValidLit L → G2.parse L = .ok (some (litVal L.data))) ∧
    G2.parse "250" = .ok (some (.int 250)) ∧
    G2.parse "12.5" = .ok (some (.float (25 / 2))) ∧
    (G2.number (init "1.2.5".data)).1 = some (.float (6 / 5)) ∧
    (G2.number (init "1.2.5".data)).2.pos = 3 ∧
    (G2.number (init "".data)).1 = none ∧
    (G2.number (init ".".data)).1 = none ∧
    (G2.number (init "0".data)).1 = some (.int 0) ∧
    some (Val.int 0) ≠ none :=
  ⟨fun L h => parse_lit L h, rfl, by with_unfolding_all rfl,
    by with_unfolding_all rfl, rfl, rfl, rfl, rfl, by simp⟩

/-- Witness for C6 at the concrete literals 12.5 and 250. -/
theorem claim_C6_literals_witness :
    ValidLit "12.5" ∧ G2.parse "12.5" = .ok (some (litVal "12.5".data)) ∧
    ValidLit "250" ∧ G2.parse "250" = .ok (some (litVal "250".data)) :=
  ⟨by decide, claim_C6_literals.1 "12.5" (by decide),
    by decide, claim_C6_literals.1 "250" (by decide)⟩

/-- Claim C7.  Division always yields a float whatever the operand types:
for integer operands a and b with b nonzero, the `/` fold in `term`
produces `float (a / b)`, and `parse("4 / 2")` returns the float 2.0. -/
theorem claim_C7_div_float :
    (∀ a b : ℤ, b ≠ 0 →
      pyDiv (some (.int a)) (some (.int b)) = .ok (.float ((a : ℚ) / (b : ℚ))) ∧
      ∀ v, pyDiv (some (.int a)) (some (.int b)) = .ok v → v.isFloat = true) ∧
    G2.parse "4 / 2" = .ok (some (.float 2)) := by
  refine ⟨?_, by with_unfolding_all rfl⟩
  intro a b hb
  have hq : ((b : ℚ) = 0) = False := by
    simp [Int.cast_eq_zero, hb]
  constructor
  · simp [pyDiv, Val.toQ, hq]
  · intro v hv
    simp [pyDiv, Val.toQ, hq] at hv
    rw [← hv]
    rfl

/-- Witness for C7 at a = 4, b = 2. -/
theorem claim_C7_div_float_witness :
    (2 : ℤ) ≠ 0 ∧
    pyDiv (some (.int 4)) (some (.int 2)) = .ok (.float ((4 : ℚ) / (2 : ℚ))) :=
  ⟨by decide, (claim_C7_div_float.1 4 2 (by decide)).1⟩

/-- Claim C8.  The cursor invariant: after construction and after every
`advance` or `skip_whitespace`, `current` equals `text[position]` when in
range and none otherwise; once the position has reached the end, any
number of further `advance` calls keeps `current` none. -/
theorem claim_C8_cursor_invariant :
    (∀ t, inv (init t)) ∧
    (∀ s, inv (advance s)) ∧
    (∀ s, inv s → inv (skip_whitespace s)) ∧
    (∀ s n, s.text.length ≤ s.pos → (advance^[n + 1] s).current = none) :=
  ⟨inv_init, inv_advance, inv_skip_whitespace, fun s n h => advance_iterate_end n s h⟩

/-- Witness for C8 on concrete scanner states. -/
theorem claim_C8_cursor_invariant_witness :
    inv (skip_whitespace (init " 1".data)) ∧
    (advance^[3] (⟨['a'], 1, none⟩ : St)).current = none :=
  ⟨claim_C8_cursor_invariant.2.2.1 _ (claim_C8_cursor_invariant.1 " 1".data),
    claim_C8_cursor_invariant.2.2.2 ⟨['a'], 1, none⟩ 2 (by decide)⟩

/-- Claim C9.  The extended literal rule also accepts a dot with digits on
one side only: `parse(".5")` is the float 0.5 and `parse("5.")` is the
float 5.0. -/
theorem claim_C9_dot_adjacent_literals :
    G2.parse ".5" = .ok (some (.float (1 / 2))) ∧
    G2.parse "5." = .ok (some (.float 5)) ∧
    (Val.float (1 / 2)).isFloat = true ∧ (Val.float 5).isFloat = true :=
  ⟨by with_unfolding_all rfl, by with_unfolding_all rfl, rfl, rfl⟩

/-- Claim C10.  Every text read of the scanner is in bounds: the checked
variants of the constructor and of `advance`, in which an out-of-bounds
read is an `IndexError` (`none`), never produce one, on every input text
and every scanner state — hence on every sequence of scanner calls. -/
theorem claim_C10_inbounds :
    (∀ t, initChecked t = some (init t)) ∧
    (∀ s, advanceChecked s = some (advance s)) :=
  ⟨initChecked_eq_init, advanceChecked_eq_advance⟩

